import Mathlib

/-!
Shallow embedding of `src/host.py` (camera control server): the per-axis
angle calibration mapping, the `/motion/<axis>` and `/motion/<axis>/limit`
route handlers, and the GStreamer pipeline session manager
(`_make_gst_pipeline`, `_start_pipeline`, `_stop_pipeline`).

Servo and process I/O are modelled by explicit inputs and event logs: a
servo read is an `Option ℚ` (`none` models `ServoTimeoutError` or any
other read exception), the success of `servo.move` is a `Bool`, and the
external processes spawned or signalled by the pipeline manager are
recorded in a list of `Event`s.  Filesystem side effects of the `hls`
branch (creating and clearing `/tmp/hls`) are not modelled; only the
returned command string is.  Python numbers are modelled as exact
rationals, with `int(...)` conversion as explicit truncation toward zero.
-/

namespace CamServer

/-- Python `int(...)` conversion applied to an exact rational: truncation
toward zero (floor for nonnegative values, ceiling for negative ones). -/
def pyInt (q : ℚ) : ℤ := if 0 ≤ q then ⌊q⌋ else ⌈q⌉

/-- Calibration parameters for one axis, `servo_map[axis]` in the device
config: the logical/physical correspondence is
`physical = center + direction * scale * logical`. -/
structure MapCfg where
  center : ℚ
  direction : ℚ
  scale : ℚ
deriving DecidableEq

/-- Helper `physical_to_mapped` defined inside `motion_limit` in
`src/host.py`: `(physical - center) / (direction * scale)`. -/
def physical_to_mapped (cfg : MapCfg) (physical : ℚ) : ℚ :=
  (physical - cfg.center) / (cfg.direction * cfg.scale)

/-- Helper `mapped_to_physical` defined inside `motion_limit` in
`src/host.py`: `int(center + direction * mapped * scale)`. -/
def mapped_to_physical (cfg : MapCfg) (mapped : ℚ) : ℤ :=
  pyInt (cfg.center + cfg.direction * mapped * cfg.scale)

/-! ## Motion route, GET branch (`motion` in `src/host.py`) -/

/-- JSON body returned by a GET on `/motion/<axis>`.  `commError` records
whether the `"error": "communication_error"` field is present.  Both the
success and the degraded branch return HTTP 200. -/
structure MotionGetResp where
  angle : ℚ
  physical_angle : ℚ
  commError : Bool
  httpCode : ℕ
deriving DecidableEq

/-- GET branch of `motion`: `reading` is the result of
`servo.get_physical_angle()` (`none` when the read raises).  On success the
logical angle is recovered by inverting the calibration; on failure the
handler returns angle `0`, the configured center as the physical angle and
the `communication_error` flag, still with HTTP 200. -/
def motionGet (cfg : MapCfg) (reading : Option ℚ) : MotionGetResp :=
  match reading with
  | some p =>
      { angle := (p - cfg.center) / (cfg.direction * cfg.scale)
        physical_angle := p
        commError := false
        httpCode := 200 }
  | none =>
      { angle := 0
        physical_angle := cfg.center
        commError := true
        httpCode := 200 }

/-! ## Motion route, POST branch (`motion` in `src/host.py`) -/

/-- `servo_angle` in the POST branch of `motion`: the raw requested angle
when `option == "raw"`, otherwise `int(center + direction * angle * scale)`. -/
def servoAngle (cfg : MapCfg) (angle : ℤ) (opt : String) : ℤ :=
  if opt = "raw" then angle
  else pyInt (cfg.center + cfg.direction * angle * cfg.scale)

/-- `limited_angle` in the POST branch of `motion`:
`max(min_limit, min(max_limit, servo_angle))`. -/
def clampedTarget (cfg : MapCfg) (limits : ℤ × ℤ) (angle : ℤ) (opt : String) : ℤ :=
  max limits.1 (min limits.2 (servoAngle cfg angle opt))

/-- The `servo.move(limited_angle, time=move_time)` call issued by the POST
branch of `motion`. -/
structure MoveCmd where
  target : ℤ
  time_ms : ℤ
deriving DecidableEq

/-- JSON body returned by a POST on `/motion/<axis>`: either a 200 response
with a status of `"ok"` or `"limited"`, or a 500 response with
`"error": "servo_communication_failed"` when `servo.move` raised. -/
inductive MotionPostResp
  | ok (status : String) (angle : ℤ) (physical_angle : ℤ)
  | error (error : String)
deriving DecidableEq

/-- The `status` field of the response (`"error"` on the 500 branch). -/
def MotionPostResp.statusStr : MotionPostResp → String
  | .ok s _ _ => s
  | .error _ => "error"

/-- POST branch of `motion`: maps the requested angle unless `option` is
`"raw"`, clamps to the persisted limits, derives the move duration from the
current angle read (`currentReading`, `none` when the read raises, in which
case the fallback duration 1000 ms is used), always issues the move, and
reports `"ok"` when clamping left the target unchanged, `"limited"`
otherwise; `moveOk = false` models `servo.move` raising. -/
def motionPost (cfg : MapCfg) (limits : ℤ × ℤ) (angle : ℤ) (opt : String)
    (currentReading : Option ℚ) (moveOk : Bool) : MoveCmd × MotionPostResp :=
  let limited_angle := clampedTarget cfg limits angle opt
  let move_time : ℤ :=
    match currentReading with
    | some cur => pyInt (|cur - (limited_angle : ℚ)| * 1000 / 15)
    | none => 1000
  (⟨limited_angle, move_time⟩,
   if moveOk then
     .ok (if limited_angle = servoAngle cfg angle opt then "ok" else "limited")
       angle limited_angle
   else
     .error "servo_communication_failed")

/-! ## Motion limit route, POST branch (`motion_limit` in `src/host.py`) -/

/-- Resolution of one bound in the POST branch of `motion_limit`: the raw
physical value if given, else the logical value converted through
`mapped_to_physical`, else the currently stored physical limit. -/
def resolveBound (cfg : MapCfg) (raw? mapped? : Option ℚ) (fallback : ℤ) : ℚ :=
  match raw? with
  | some v => v
  | none =>
      match mapped? with
      | some m => (mapped_to_physical cfg m : ℚ)
      | none => (fallback : ℚ)

/-- `max(0, min(240, x))` applied to each bound in `motion_limit`. -/
def clamp0_240 (x : ℚ) : ℚ := max 0 (min 240 x)

/-- JSON body returned by a POST on `/motion/<axis>/limit`: the stored
physical bounds plus both logical bounds re-normalized so that
`min ≤ max`. -/
structure LimitResp where
  min_mapped : ℚ
  max_mapped : ℚ
  min_raw : ℤ
  max_raw : ℤ
deriving DecidableEq

/-- POST branch of `motion_limit`.  `stored` is `SERVO_LIMITS[axis]` before
the request.  Each bound is resolved (raw wins over logical, which wins over
the stored value), clamped to `[0, 240]`, the pair is swapped when
`min_raw > max_raw` (one branch for `direction < 0`, one for
`direction > 0`), both are truncated to `int`, and the result is stored
(and applied to `servo.set_angle_limits`, not modelled).  Returns the
response and the new stored pair. -/
def motionLimitPost (cfg : MapCfg) (stored : ℤ × ℤ)
    (min_raw? max_raw? min_mapped? max_mapped? : Option ℚ) :
    LimitResp × (ℤ × ℤ) :=
  let min0 := resolveBound cfg min_raw? min_mapped? stored.1
  let max0 := resolveBound cfg max_raw? max_mapped? stored.2
  let min1 := clamp0_240 min0
  let max1 := clamp0_240 max0
  let pair :=
    if cfg.direction < 0 ∧ max1 < min1 then (max1, min1)
    else if 0 < cfg.direction ∧ max1 < min1 then (max1, min1)
    else (min1, max1)
  let minI := pyInt pair.1
  let maxI := pyInt pair.2
  let mm := physical_to_mapped cfg (minI : ℚ)
  let xm := physical_to_mapped cfg (maxI : ℚ)
  let resp :=
    if xm < mm then LimitResp.mk xm mm minI maxI
    else LimitResp.mk mm xm minI maxI
  (resp, (minI, maxI))

/-! ## Pipeline session manager (`_make_gst_pipeline`, `_start_pipeline`,
`_stop_pipeline` in `src/host.py`) -/

/-- Parsing of the UDP target, `re.match(r"udp://([\d.]+):(\d+)", url)`:
a `udp://` head, a nonempty run of digits and dots, a colon, and a
nonempty run of digits; `re.match` anchors at the start only, so trailing
characters are ignored. -/
def parseUdpUrl (url : String) : Option (String × String) :=
  if url.startsWith "udp://" then
    let rest := url.drop 6
    let host := rest.takeWhile (fun c => c.isDigit || c == '.')
    let rest2 := rest.drop host.length
    if host.length > 0 ∧ rest2.startsWith ":" then
      let port := (rest2.drop 1).takeWhile Char.isDigit
      if port.length > 0 then some (host, port) else none
    else none
  else none

/-- `_make_gst_pipeline`: builds the full launch command string, raising
`ValueError` (modelled as `Except.error`) for a malformed UDP target or an
unsupported protocol.  The `hls` branch additionally creates and clears
`/tmp/hls` on disk; that side effect is outside the model. -/
def makeGstPipeline (protocol view url : String) : Except String String :=
  let bypass := if view = "pure" then "true" else "false"
  let model_path := "/root/model/yolov5s-640-640.rknn"
  let label_path := "/root/model/coco_80_labels_list.txt"
  let base :=
    "v4l2src device=/dev/video0 io-mode=mmap do-timestamp=true " ++
    "! video/x-raw,format=NV16 " ++
    s!"! rknn silent=true bypass={bypass} show-fps=true frame-skip=2 " ++
    s!"model-path={model_path} " ++
    s!"label-path={label_path} " ++
    "! mpph264enc rc-mode=cbr bps=10000000 gop=30 " ++
    "! h264parse config-interval=-1 "
  if protocol = "udp" then
    match parseUdpUrl url with
    | none => Except.error "UDP url must be udp://<host>:<port>"
    | some (host, port) =>
        Except.ok ("gst-launch-1.0 -v " ++ base ++
          s!"! rtph264pay pt=96 ! udpsink host={host} port={port}")
  else if protocol = "hls" then
    Except.ok ("gst-launch-1.0 -v " ++ base ++
      "! hlssink2 location=/tmp/hls/segment-%05d.ts " ++
      "playlist-location=/tmp/hls/stream.m3u8 " ++
      "target-duration=1 max-files=3 ")
  else if protocol = "rtsp" then
    let pipeline :=
      "v4l2src device=/dev/video0 io-mode=mmap do-timestamp=true " ++
      "! video/x-raw,format=NV16 " ++
      s!"! rknn silent=true bypass={bypass} show-fps=true frame-skip=2 " ++
      s!"model-path={model_path} " ++
      s!"label-path={label_path} " ++
      "! mpph264enc rc-mode=cbr bps=10000000 gop=30 " ++
      "! rtph264pay name=pay0 pt=96 "
    Except.ok ("test-launch " ++ "\"(" ++ pipeline ++ ")\"")
  else
    Except.error "Unsupported protocol"

/-- One external `subprocess.Popen` handle: its pid, and whether
`poll() is None` (still running). -/
structure Proc where
  pid : ℕ
  alive : Bool
deriving DecidableEq

/-- The `PIPELINES` dict, `protocol → Popen`, as an association list. -/
abbrev Pipelines := List (String × Proc)

/-- Externally visible process operations performed by the manager:
spawning a process for a protocol, or signalling (SIGINT, possibly
followed by kill) an existing one. -/
inductive Event
  | spawned (protocol : String) (pid : ℕ)
  | signaled (pid : ℕ)
deriving DecidableEq

/-- Whether an event is the spawning of a new external process. -/
def Event.isSpawn : Event → Bool
  | .spawned _ _ => true
  | .signaled _ => false

/-- Python dict lookup `PIPELINES.get(protocol)`. -/
def dictGet : Pipelines → String → Option Proc
  | [], _ => none
  | e :: es, k => if e.1 = k then some e.2 else dictGet es k

/-- Removal of a key, the effect of `PIPELINES.pop(protocol, None)` on the
dict contents. -/
def dictRemove : Pipelines → String → Pipelines
  | [], _ => []
  | e :: es, k => if e.1 = k then dictRemove es k else e :: dictRemove es k

/-- `_stop_pipeline`: pops the protocol entry unconditionally; if an entry
existed and its process was still running, it is signalled (SIGINT, then
`wait(5)`, then `kill()` on timeout — all collapsed into one `signaled`
event since the entry is removed in every case). -/
def stopPipeline (ps : Pipelines) (protocol : String) : Pipelines × List Event :=
  match dictGet ps protocol with
  | none => (dictRemove ps protocol, [])
  | some proc =>
      (dictRemove ps protocol, if proc.alive then [Event.signaled proc.pid] else [])

/-- The loop `for proto in list(PIPELINES.keys()): _stop_pipeline(proto)`
inside `_start_pipeline`, instrumented with the intermediate values of
`PIPELINES` after each stop. -/
def stopAllGo (ps : Pipelines) : List String → Pipelines × List Event × List Pipelines
  | [] => (ps, [], [])
  | k :: ks =>
      let s1 := stopPipeline ps k
      let rest := stopAllGo s1.1 ks
      (rest.1, s1.2 ++ rest.2.1, s1.1 :: rest.2.2)

/-- Result of `_start_pipeline`: the outcome (a `ValueError` from command
synthesis propagates to the route as a 400 response), the final value of
`PIPELINES`, the external process events in order, and the trace of values
`PIPELINES` takes during the call (initial value included). -/
structure StartResult where
  result : Except String Unit
  pipelines : Pipelines
  events : List Event
  trace : List Pipelines

/-- `_start_pipeline`: a no-op when the protocol already has an entry;
otherwise every currently recorded pipeline is stopped, then the command
is synthesized (an error here propagates after the stops have happened),
then the process is spawned (with pid `nextPid`) and recorded. -/
def startPipeline (ps : Pipelines) (nextPid : ℕ) (protocol view url : String) :
    StartResult :=
  if (dictGet ps protocol).isSome then
    ⟨Except.ok (), ps, [], [ps]⟩
  else
    let stopped := stopAllGo ps (ps.map Prod.fst)
    match makeGstPipeline protocol view url with
    | Except.error e =>
        ⟨Except.error e, stopped.1, stopped.2.1, ps :: stopped.2.2⟩
    | Except.ok _cmd =>
        let proc : Proc := ⟨nextPid, true⟩
        ⟨Except.ok (), (protocol, proc) :: stopped.1,
          stopped.2.1 ++ [Event.spawned protocol nextPid],
          (ps :: stopped.2.2) ++ [(protocol, proc) :: stopped.1]⟩

/-- Spontaneous exit of the external process recorded for a protocol: the
process stops running (`poll()` no longer returns `None`) but no code in
`src/host.py` removes the dict entry in response. -/
def procExit (ps : Pipelines) (protocol : String) : Pipelines :=
  ps.map (fun e => if e.1 = protocol then (e.1, { e.2 with alive := false }) else e)

/-- States of `PIPELINES` reachable from the initial empty dict under start
requests, stop requests, and spontaneous process exits.  The natural number
is the pid counter used to give spawned processes fresh pids. -/
inductive Reach : Pipelines → ℕ → Prop
  | init : Reach [] 0
  | start (protocol view url : String) {ps : Pipelines} {n : ℕ} (h : Reach ps n) :
      Reach (startPipeline ps n protocol view url).pipelines (n + 1)
  | stop (protocol : String) {ps : Pipelines} {n : ℕ} (h : Reach ps n) :
      Reach (stopPipeline ps protocol).1 n
  | exit (protocol : String) {ps : Pipelines} {n : ℕ} (h : Reach ps n) :
      Reach (procExit ps protocol) n

/-- The set of protocols recorded in the registry. -/
def entryProtocols (ps : Pipelines) : List String := ps.map Prod.fst

/-- The set of protocols whose delivery process is actually running. -/
def runningProtocols (ps : Pipelines) : List String :=
  (ps.filter (fun e => e.2.alive)).map Prod.fst

/-! ## Basic facts about `pyInt` -/

theorem pyInt_intCast (x : ℤ) : pyInt (x : ℚ) = x := by
  unfold pyInt
  split <;> simp

theorem pyInt_of_nonneg {q : ℚ} (h : 0 ≤ q) : pyInt q = ⌊q⌋ := if_pos h

theorem pyInt_nonneg {q : ℚ} (h : 0 ≤ q) : 0 ≤ pyInt q := by
  rw [pyInt_of_nonneg h]
  exact Int.floor_nonneg.mpr h

theorem pyInt_mono_of_nonneg {a b : ℚ} (ha : 0 ≤ a) (hab : a ≤ b) :
    pyInt a ≤ pyInt b := by
  rw [pyInt_of_nonneg ha, pyInt_of_nonneg (ha.trans hab)]
  exact Int.floor_le_floor hab

theorem pyInt_le_of_le {q : ℚ} {m : ℤ} (h0 : 0 ≤ q) (h : q ≤ (m : ℚ)) :
    pyInt q ≤ m := by
  rw [pyInt_of_nonneg h0]
  exact (Int.floor_le_floor h).trans_eq (Int.floor_intCast m)

/-! ## Claim theorems: calibration and motion -/

/-- C5: for every axis calibration with direction in `{-1, +1}` and
`scale > 0`, and every integer physical angle `x`, composing the
physical-to-logical conversion with the logical-to-physical conversion
returns `x`: `mapped_to_physical (physical_to_mapped x) = x`. -/
theorem mapped_physical_round_trip (cfg : MapCfg) (x : ℤ)
    (hdir : cfg.direction = -1 ∨ cfg.direction = 1) (hscale : 0 < cfg.scale) :
    mapped_to_physical cfg (physical_to_mapped cfg (x : ℚ)) = x := by
  have hd : cfg.direction ≠ 0 := by
    rcases hdir with h | h <;> rw [h] <;> norm_num
  have hs : cfg.scale ≠ 0 := ne_of_gt hscale
  have key : cfg.center +
      cfg.direction * ((x - cfg.center) / (cfg.direction * cfg.scale)) * cfg.scale
        = (x : ℚ) := by
    field_simp
    ring
  rw [mapped_to_physical, physical_to_mapped, key, pyInt_intCast]

/-- Witness for C5 at the default pan calibration and physical angle 100. -/
theorem mapped_physical_round_trip_witness :
    ((⟨120, -1, 1⟩ : MapCfg).direction = -1 ∨ (⟨120, -1, 1⟩ : MapCfg).direction = 1) ∧
    (0 : ℚ) < (⟨120, -1, 1⟩ : MapCfg).scale ∧
    mapped_to_physical ⟨120, -1, 1⟩ (physical_to_mapped ⟨120, -1, 1⟩ ((100 : ℤ) : ℚ)) = 100 :=
  ⟨Or.inl rfl, by norm_num,
    mapped_physical_round_trip ⟨120, -1, 1⟩ 100 (Or.inl rfl) (by norm_num)⟩

/-- C9: for every angle-read request, when the servo read raises
(`reading = none`) the handler still answers with HTTP 200, the physical
angle reported is the calibration center, the logical angle is the
inverse-mapped value of the center, and the communication-error flag is
set. -/
theorem motionGet_timeout_degrades (cfg : MapCfg) (reading : Option ℚ)
    (h : reading = none) :
    (motionGet cfg reading).httpCode = 200 ∧
    (motionGet cfg reading).physical_angle = cfg.center ∧
    (motionGet cfg reading).commError = true ∧
    (motionGet cfg reading).angle = physical_to_mapped cfg cfg.center := by
  subst h
  refine ⟨rfl, rfl, rfl, ?_⟩
  simp [motionGet, physical_to_mapped]

/-- Witness for C9 at the default pan calibration with a failed read. -/
theorem motionGet_timeout_degrades_witness :
    (none : Option ℚ) = none ∧
    (motionGet ⟨120, -1, 1⟩ none).httpCode = 200 ∧
    (motionGet ⟨120, -1, 1⟩ none).physical_angle = 120 ∧
    (motionGet ⟨120, -1, 1⟩ none).commError = true ∧
    (motionGet ⟨120, -1, 1⟩ none).angle = physical_to_mapped ⟨120, -1, 1⟩ 120 :=
  ⟨rfl, motionGet_timeout_degrades ⟨120, -1, 1⟩ none rfl⟩

/-- C3: for every move request on an axis whose stored limits satisfy
`min ≤ max`, the physical angle commanded to the servo lies within
`[min, max]`; when the move command itself succeeds, the outcome is
`"limited"` exactly when the raw computed target fell outside the interval,
and `"ok"` exactly when it was inside, in which case the target is
commanded unchanged. -/
theorem motion_move_clamped (cfg : MapCfg) (limits : ℤ × ℤ) (angle : ℤ)
    (opt : String) (cur : Option ℚ) (hlim : limits.1 ≤ limits.2) :
    limits.1 ≤ (motionPost cfg limits angle opt cur true).1.target ∧
    (motionPost cfg limits angle opt cur true).1.target ≤ limits.2 ∧
    ((motionPost cfg limits angle opt cur true).2.statusStr = "ok" ↔
      limits.1 ≤ servoAngle cfg angle opt ∧ servoAngle cfg angle opt ≤ limits.2) ∧
    ((motionPost cfg limits angle opt cur true).2.statusStr = "limited" ↔
      servoAngle cfg angle opt < limits.1 ∨ limits.2 < servoAngle cfg angle opt) ∧
    ((motionPost cfg limits angle opt cur true).2.statusStr = "ok" →
      (motionPost cfg limits angle opt cur true).1.target = servoAngle cfg angle opt) := by
  have htgt : (motionPost cfg limits angle opt cur true).1.target
      = max limits.1 (min limits.2 (servoAngle cfg angle opt)) := rfl
  have hstat : (motionPost cfg limits angle opt cur true).2.statusStr
      = if clampedTarget cfg limits angle opt = servoAngle cfg angle opt
        then "ok" else "limited" := by
    simp [motionPost, MotionPostResp.statusStr]
  have hcl : clampedTarget cfg limits angle opt
      = max limits.1 (min limits.2 (servoAngle cfg angle opt)) := rfl
  refine ⟨by rw [htgt]; omega, by rw [htgt]; omega, ?_, ?_, ?_⟩
  · rw [hstat]
    by_cases h : clampedTarget cfg limits angle opt = servoAngle cfg angle opt
    · rw [if_pos h]
      rw [hcl] at h
      constructor
      · intro _; omega
      · intro _; rfl
    · rw [if_neg h]
      constructor
      · intro hcontra; exact absurd hcontra (by decide)
      · intro hin
        exfalso
        apply h
        rw [hcl]
        omega
  · rw [hstat]
    by_cases h : clampedTarget cfg limits angle opt = servoAngle cfg angle opt
    · rw [if_pos h]
      rw [hcl] at h
      constructor
      · intro hcontra; exact absurd hcontra (by decide)
      · intro hout; omega
    · rw [if_neg h]
      constructor
      · intro _
        rw [hcl] at h
        omega
      · intro _; rfl
  · rw [hstat]
    by_cases h : clampedTarget cfg limits angle opt = servoAngle cfg angle opt
    · rw [if_pos h]
      intro _
      rw [htgt, ← hcl, h]
    · rw [if_neg h]
      intro hcontra
      exact absurd hcontra (by decide)

/-- Witness for C3: raw move to 250 on pan with limits `[30, 210]` is
clamped to 210 and reported `"limited"`. -/
theorem motion_move_clamped_witness :
    ((30 : ℤ), (210 : ℤ)).1 ≤ ((30 : ℤ), (210 : ℤ)).2 ∧
    (30 : ℤ) ≤ (motionPost ⟨120, -1, 1⟩ (30, 210) 250 "raw" none true).1.target ∧
    (motionPost ⟨120, -1, 1⟩ (30, 210) 250 "raw" none true).1.target ≤ 210 ∧
    ((motionPost ⟨120, -1, 1⟩ (30, 210) 250 "raw" none true).2.statusStr = "limited" ↔
      servoAngle ⟨120, -1, 1⟩ 250 "raw" < 30 ∨ 210 < servoAngle ⟨120, -1, 1⟩ 250 "raw") := by
  have h := motion_move_clamped ⟨120, -1, 1⟩ (30, 210) 250 "raw" none (by norm_num)
  exact ⟨by norm_num, h.1, h.2.1, h.2.2.2.1⟩

/-- C8 counterexample: moving pan from physical 120 to raw target 121 with
limits `[30, 210]` yields the move duration `int(1 * 1000 / 15) = 66` ms,
which is not equal to `|120 - 121| * 1000 / 15` and makes the commanded
angular velocity `1000/66 deg/s` strictly exceed 15 deg/s
(`15 * 66 < 1 * 1000`). -/
theorem motion_velocity_cap_cex :
    (motionPost ⟨120, -1, 1⟩ (30, 210) 121 "raw" (some 120) true).1 =
      MoveCmd.mk 121 66 ∧
    ¬ ((66 : ℚ) = |(120 : ℚ) - 121| * 1000 / 15) ∧
    15 * (66 : ℚ) < |(120 : ℚ) - 121| * 1000 := by
  refine ⟨?_, by norm_num, by norm_num⟩
  norm_num [motionPost, clampedTarget, servoAngle, pyInt]

/-- C8 amended: when the current angle is read successfully the commanded
move duration is the truncation toward zero of
`|current - target| * 1000 / 15` ms, so it tracks the 15 deg/s cap to
within one millisecond of truncation
(`15 * t ≤ |current - target| * 1000 < 15 * (t + 1)`); when the read
fails, the fixed fallback duration 1000 ms is used and the move is still
issued with the clamped target. -/
theorem motion_move_duration (cfg : MapCfg) (limits : ℤ × ℤ) (angle : ℤ)
    (opt : String) (moveOk : Bool) :
    (∀ c : ℚ,
      (motionPost cfg limits angle opt (some c) moveOk).1.time_ms =
        pyInt (|c - ((motionPost cfg limits angle opt (some c) moveOk).1.target : ℚ)|
          * 1000 / 15) ∧
      15 * ((motionPost cfg limits angle opt (some c) moveOk).1.time_ms : ℚ) ≤
        |c - ((motionPost cfg limits angle opt (some c) moveOk).1.target : ℚ)| * 1000 ∧
      |c - ((motionPost cfg limits angle opt (some c) moveOk).1.target : ℚ)| * 1000 <
        15 * (((motionPost cfg limits angle opt (some c) moveOk).1.time_ms : ℚ) + 1)) ∧
    (motionPost cfg limits angle opt none moveOk).1.time_ms = 1000 ∧
    (motionPost cfg limits angle opt none moveOk).1.target =
      clampedTarget cfg limits angle opt := by
  refine ⟨?_, rfl, rfl⟩
  intro c
  have htgt : (motionPost cfg limits angle opt (some c) moveOk).1.target
      = clampedTarget cfg limits angle opt := rfl
  have htime : (motionPost cfg limits angle opt (some c) moveOk).1.time_ms
      = pyInt (|c - ((clampedTarget cfg limits angle opt : ℤ) : ℚ)| * 1000 / 15) := rfl
  rw [htgt, htime]
  set d : ℚ := |c - ((clampedTarget cfg limits angle opt : ℤ) : ℚ)| with hd
  have hd0 : 0 ≤ d := abs_nonneg _
  have hq0 : 0 ≤ d * 1000 / 15 := by positivity
  refine ⟨rfl, ?_, ?_⟩
  · rw [pyInt_of_nonneg hq0]
    have := Int.floor_le (d * 1000 / 15)
    nlinarith
  · rw [pyInt_of_nonneg hq0]
    have := Int.lt_floor_add_one (d * 1000 / 15)
    nlinarith

/-- C4: for every limit-update request and a calibration direction of
`-1` or `+1`, the stored per-axis limits after the update satisfy
`min ≤ max` and both lie within `[0, 240]`. -/
theorem limit_update_normalized (cfg : MapCfg) (stored : ℤ × ℤ)
    (min_raw? max_raw? min_mapped? max_mapped? : Option ℚ)
    (hdir : cfg.direction = -1 ∨ cfg.direction = 1) :
    (motionLimitPost cfg stored min_raw? max_raw? min_mapped? max_mapped?).2.1 ≤
      (motionLimitPost cfg stored min_raw? max_raw? min_mapped? max_mapped?).2.2 ∧
    0 ≤ (motionLimitPost cfg stored min_raw? max_raw? min_mapped? max_mapped?).2.1 ∧
    (motionLimitPost cfg stored min_raw? max_raw? min_mapped? max_mapped?).2.2 ≤ 240 := by
  have hd0 : cfg.direction < 0 ∨ 0 < cfg.direction := by
    rcases hdir with h | h <;> rw [h] <;> norm_num
  set a : ℚ := clamp0_240 (resolveBound cfg min_raw? min_mapped? stored.1) with ha
  set b : ℚ := clamp0_240 (resolveBound cfg max_raw? max_mapped? stored.2) with hb
  have hbnd : ∀ x : ℚ, 0 ≤ clamp0_240 x ∧ clamp0_240 x ≤ 240 := by
    intro x
    unfold clamp0_240
    constructor
    · exact le_max_left 0 _
    · exact max_le (by norm_num) (min_le_left 240 x)
  have ha0 : 0 ≤ a := (hbnd _).1
  have ha240 : a ≤ 240 := (hbnd _).2
  have hb0 : 0 ≤ b := (hbnd _).1
  have hb240 : b ≤ 240 := (hbnd _).2
  have hres : (motionLimitPost cfg stored min_raw? max_raw? min_mapped? max_mapped?).2 =
      (pyInt (if cfg.direction < 0 ∧ b < a then (b, a)
        else if 0 < cfg.direction ∧ b < a then (b, a) else (a, b)).1,
       pyInt (if cfg.direction < 0 ∧ b < a then (b, a)
        else if 0 < cfg.direction ∧ b < a then (b, a) else (a, b)).2) := rfl
  rw [hres]
  have h240 : ((240 : ℤ) : ℚ) = 240 := by norm_num
  split_ifs with h1 h2
  · exact ⟨pyInt_mono_of_nonneg hb0 (le_of_lt h1.2),
      pyInt_nonneg hb0, pyInt_le_of_le ha0 (h240 ▸ ha240)⟩
  · exact ⟨pyInt_mono_of_nonneg hb0 (le_of_lt h2.2),
      pyInt_nonneg hb0, pyInt_le_of_le ha0 (h240 ▸ ha240)⟩
  · have hab : a ≤ b := by
      rcases hd0 with h | h
      · by_contra hc
        exact h1 ⟨h, lt_of_not_le hc⟩
      · by_contra hc
        exact h2 ⟨h, lt_of_not_le hc⟩
    exact ⟨pyInt_mono_of_nonneg ha0 hab,
      pyInt_nonneg ha0, pyInt_le_of_le hb0 (h240 ▸ hb240)⟩

/-- Witness for C4: the scenario from the spec, raw bounds 30 and 210 on
pan with direction `-1`, stores an ordered pair inside `[0, 240]`. -/
theorem limit_update_normalized_witness :
    ((⟨120, -1, 1⟩ : MapCfg).direction = -1 ∨ (⟨120, -1, 1⟩ : MapCfg).direction = 1) ∧
    (motionLimitPost ⟨120, -1, 1⟩ (30, 210) (some 30) (some 210) none none).2.1 ≤
      (motionLimitPost ⟨120, -1, 1⟩ (30, 210) (some 30) (some 210) none none).2.2 ∧
    0 ≤ (motionLimitPost ⟨120, -1, 1⟩ (30, 210) (some 30) (some 210) none none).2.1 ∧
    (motionLimitPost ⟨120, -1, 1⟩ (30, 210) (some 30) (some 210) none none).2.2 ≤ 240 :=
  ⟨Or.inl rfl,
    limit_update_normalized ⟨120, -1, 1⟩ (30, 210) (some 30) (some 210) none none (Or.inl rfl)⟩

/-- C10: when one bound of a limit-update request is given in neither raw
nor logical form, it defaults to the currently stored physical limit for
that axis (assumed within `[0, 240]`, as every update stores); the stored
pair after such a request consists of the preserved old bound and the
clamped-and-truncated new bound, in one of the two orders the `min ≤ max`
swap allows. -/
theorem limit_update_partial_preserves (cfg : MapCfg) (stored : ℤ × ℤ)
    (braw? bmapped? : Option ℚ)
    (h1 : 0 ≤ stored.1) (h2 : stored.1 ≤ 240)
    (h3 : 0 ≤ stored.2) (h4 : stored.2 ≤ 240) :
    ((motionLimitPost cfg stored none braw? none bmapped?).2 =
        (stored.1, pyInt (clamp0_240 (resolveBound cfg braw? bmapped? stored.2))) ∨
      (motionLimitPost cfg stored none braw? none bmapped?).2 =
        (pyInt (clamp0_240 (resolveBound cfg braw? bmapped? stored.2)), stored.1)) ∧
    ((motionLimitPost cfg stored braw? none bmapped? none).2 =
        (pyInt (clamp0_240 (resolveBound cfg braw? bmapped? stored.1)), stored.2) ∨
      (motionLimitPost cfg stored braw? none bmapped? none).2 =
        (stored.2, pyInt (clamp0_240 (resolveBound cfg braw? bmapped? stored.1)))) := by
  have hclamp : ∀ z : ℤ, 0 ≤ z → z ≤ 240 → clamp0_240 ((z : ℤ) : ℚ) = ((z : ℤ) : ℚ) := by
    intro z hz0 hz240
    unfold clamp0_240
    rw [min_eq_right (by exact_mod_cast hz240), max_eq_right (by exact_mod_cast hz0)]
  constructor
  · have hres : (motionLimitPost cfg stored none braw? none bmapped?).2 =
        (pyInt (if cfg.direction < 0 ∧
            clamp0_240 (resolveBound cfg braw? bmapped? stored.2) <
              clamp0_240 ((stored.1 : ℚ)) then
            (clamp0_240 (resolveBound cfg braw? bmapped? stored.2), clamp0_240 ((stored.1 : ℚ)))
          else if 0 < cfg.direction ∧
            clamp0_240 (resolveBound cfg braw? bmapped? stored.2) <
              clamp0_240 ((stored.1 : ℚ)) then
            (clamp0_240 (resolveBound cfg braw? bmapped? stored.2), clamp0_240 ((stored.1 : ℚ)))
          else (clamp0_240 ((stored.1 : ℚ)), clamp0_240 (resolveBound cfg braw? bmapped? stored.2))).1,
         pyInt (if cfg.direction < 0 ∧
            clamp0_240 (resolveBound cfg braw? bmapped? stored.2) <
              clamp0_240 ((stored.1 : ℚ)) then
            (clamp0_240 (resolveBound cfg braw? bmapped? stored.2), clamp0_240 ((stored.1 : ℚ)))
          else if 0 < cfg.direction ∧
            clamp0_240 (resolveBound cfg braw? bmapped? stored.2) <
              clamp0_240 ((stored.1 : ℚ)) then
            (clamp0_240 (resolveBound cfg braw? bmapped? stored.2), clamp0_240 ((stored.1 : ℚ)))
          else (clamp0_240 ((stored.1 : ℚ)), clamp0_240 (resolveBound cfg braw? bmapped? stored.2))).2) := rfl
    rw [hres, hclamp stored.1 h1 h2]
    split_ifs
    · exact Or.inr (by rw [pyInt_intCast])
    · exact Or.inr (by rw [pyInt_intCast])
    · exact Or.inl (by rw [pyInt_intCast])
  · have hres : (motionLimitPost cfg stored braw? none bmapped? none).2 =
        (pyInt (if cfg.direction < 0 ∧
            clamp0_240 ((stored.2 : ℚ)) <
              clamp0_240 (resolveBound cfg braw? bmapped? stored.1) then
            (clamp0_240 ((stored.2 : ℚ)), clamp0_240 (resolveBound cfg braw? bmapped? stored.1))
          else if 0 < cfg.direction ∧
            clamp0_240 ((stored.2 : ℚ)) <
              clamp0_240 (resolveBound cfg braw? bmapped? stored.1) then
            (clamp0_240 ((stored.2 : ℚ)), clamp0_240 (resolveBound cfg braw? bmapped? stored.1))
          else (clamp0_240 (resolveBound cfg braw? bmapped? stored.1), clamp0_240 ((stored.2 : ℚ)))).1,
         pyInt (if cfg.direction < 0 ∧
            clamp0_240 ((stored.2 : ℚ)) <
              clamp0_240 (resolveBound cfg braw? bmapped? stored.1) then
            (clamp0_240 ((stored.2 : ℚ)), clamp0_240 (resolveBound cfg braw? bmapped? stored.1))
          else if 0 < cfg.direction ∧
            clamp0_240 ((stored.2 : ℚ)) <
              clamp0_240 (resolveBound cfg braw? bmapped? stored.1) then
            (clamp0_240 ((stored.2 : ℚ)), clamp0_240 (resolveBound cfg braw? bmapped? stored.1))
          else (clamp0_240 (resolveBound cfg braw? bmapped? stored.1), clamp0_240 ((stored.2 : ℚ)))).2) := rfl
    rw [hres, hclamp stored.2 h3 h4]
    split_ifs
    · exact Or.inr (by rw [pyInt_intCast])
    · exact Or.inr (by rw [pyInt_intCast])
    · exact Or.inl (by rw [pyInt_intCast])

/-- Witness for C10: updating only the max bound of pan (to logical 90,
direction `-1`, so physical 30) keeps the stored values built from the old
min 30. -/
theorem limit_update_partial_preserves_witness :
    (0 : ℤ) ≤ ((30 : ℤ), (210 : ℤ)).1 ∧ ((30 : ℤ), (210 : ℤ)).1 ≤ 240 ∧
    (0 : ℤ) ≤ ((30 : ℤ), (210 : ℤ)).2 ∧ ((30 : ℤ), (210 : ℤ)).2 ≤ 240 ∧
    (((motionLimitPost ⟨120, -1, 1⟩ (30, 210) none (some 100) none none).2 =
        (30, pyInt (clamp0_240 (resolveBound ⟨120, -1, 1⟩ (some 100) none 210))) ∨
      (motionLimitPost ⟨120, -1, 1⟩ (30, 210) none (some 100) none none).2 =
        (pyInt (clamp0_240 (resolveBound ⟨120, -1, 1⟩ (some 100) none 210)), 30)) ∧
     ((motionLimitPost ⟨120, -1, 1⟩ (30, 210) (some 100) none none none).2 =
        (pyInt (clamp0_240 (resolveBound ⟨120, -1, 1⟩ (some 100) none 30)), 210) ∨
      (motionLimitPost ⟨120, -1, 1⟩ (30, 210) (some 100) none none none).2 =
        (210, pyInt (clamp0_240 (resolveBound ⟨120, -1, 1⟩ (some 100) none 30))))) :=
  ⟨by norm_num, by norm_num, by norm_num, by norm_num,
    limit_update_partial_preserves ⟨120, -1, 1⟩ (30, 210) (some 100) none
      (by norm_num) (by norm_num) (by norm_num) (by norm_num)⟩

/-! ## Facts about the pipeline registry operations -/

theorem mem_dictRemove {ps : Pipelines} {k : String} {e : String × Proc} :
    e ∈ dictRemove ps k ↔ e ∈ ps ∧ e.1 ≠ k := by
  induction ps with
  | nil => simp [dictRemove]
  | cons a as ih =>
      by_cases h : a.1 = k
      · rw [dictRemove, if_pos h, ih]
        constructor
        · rintro ⟨hmem, hne⟩; exact ⟨List.mem_cons_of_mem a hmem, hne⟩
        · rintro ⟨hmem, hne⟩
          rcases List.mem_cons.mp hmem with rfl | hmem
          · exact absurd h hne
          · exact ⟨hmem, hne⟩
      · rw [dictRemove, if_neg h]
        constructor
        · intro hmem
          rcases List.mem_cons.mp hmem with rfl | hmem
          · exact ⟨List.mem_cons_self e as, h⟩
          · obtain ⟨hm, hne⟩ := ih.mp hmem
            exact ⟨List.mem_cons_of_mem a hm, hne⟩
        · rintro ⟨hmem, hne⟩
          rcases List.mem_cons.mp hmem with rfl | hmem
          · exact List.mem_cons_self e _
          · exact List.mem_cons_of_mem a (ih.mpr ⟨hmem, hne⟩)

theorem keys_dictRemove_sublist (ps : Pipelines) (k : String) :
    ((dictRemove ps k).map Prod.fst).Sublist (ps.map Prod.fst) := by
  induction ps with
  | nil => simp [dictRemove]
  | cons a as ih =>
      by_cases h : a.1 = k
      · rw [dictRemove, if_pos h, List.map_cons]
        exact ih.trans (List.sublist_cons_self a.1 (as.map Prod.fst))
      · rw [dictRemove, if_neg h, List.map_cons, List.map_cons]
        exact ih.cons₂ a.1

theorem dictGet_dictRemove (ps : Pipelines) (k : String) :
    dictGet (dictRemove ps k) k = none := by
  induction ps with
  | nil => rfl
  | cons a as ih =>
      by_cases h : a.1 = k
      · rw [dictRemove, if_pos h]; exact ih
      · rw [dictRemove, if_neg h, dictGet, if_neg h]; exact ih

theorem stopPipeline_fst (ps : Pipelines) (k : String) :
    (stopPipeline ps k).1 = dictRemove ps k := by
  unfold stopPipeline
  cases dictGet ps k <;> rfl

theorem stopPipeline_events_no_spawn (ps : Pipelines) (k : String) :
    ∀ ev ∈ (stopPipeline ps k).2, ev.isSpawn = false := by
  unfold stopPipeline
  cases dictGet ps k with
  | none => simp
  | some proc =>
      by_cases h : proc.alive = true
      · simp [h, Event.isSpawn]
      · simp [Bool.eq_false_iff.mpr (by simpa using h), Event.isSpawn]

theorem stopAllGo_fst_nil {ks : List String} :
    ∀ {ps : Pipelines}, (∀ e ∈ ps, e.1 ∈ ks) → (stopAllGo ps ks).1 = [] := by
  induction ks with
  | nil =>
      intro ps h
      cases ps with
      | nil => rfl
      | cons e es => exact absurd (h e (List.mem_cons_self e es)) (List.not_mem_nil e.1)
  | cons k ks ih =>
      intro ps h
      show (stopAllGo (stopPipeline ps k).1 ks).1 = []
      apply ih
      intro e he
      rw [stopPipeline_fst] at he
      obtain ⟨hin, hne⟩ := mem_dictRemove.mp he
      rcases List.mem_cons.mp (h e hin) with heq | hmem
      · exact absurd heq hne
      · exact hmem

theorem stopAllGo_keys_sublist (ks : List String) :
    ∀ ps : Pipelines, ((stopAllGo ps ks).1.map Prod.fst).Sublist (ps.map Prod.fst) := by
  induction ks with
  | nil => intro ps; exact List.Sublist.refl _
  | cons k ks ih =>
      intro ps
      refine ((ih (stopPipeline ps k).1).trans ?_)
      rw [stopPipeline_fst]
      exact keys_dictRemove_sublist ps k

theorem stopAllGo_events_no_spawn (ks : List String) :
    ∀ ps : Pipelines, ∀ ev ∈ (stopAllGo ps ks).2.1, ev.isSpawn = false := by
  induction ks with
  | nil => intro ps ev h; exact absurd h (List.not_mem_nil ev)
  | cons k ks ih =>
      intro ps ev h
      have hsplit : (stopAllGo ps (k :: ks)).2.1
          = (stopPipeline ps k).2 ++ (stopAllGo (stopPipeline ps k).1 ks).2.1 := rfl
      rw [hsplit] at h
      rcases List.mem_append.mp h with h1 | h2
      · exact stopPipeline_events_no_spawn ps k ev h1
      · exact ih (stopPipeline ps k).1 ev h2

/-! ## Claim theorems: pipeline session manager -/

/-- C1 counterexample: with an `hls` session running, a start request for
`udp` with an empty (unparseable) target is rejected, but only after the
running `hls` pipeline has been stopped: its process receives a signal and
the registry ends up empty instead of unchanged. -/
theorem start_validation_failure_cex :
    (startPipeline [("hls", ⟨0, true⟩)] 1 "udp" "yolo" "").result =
      Except.error "UDP url must be udp://<host>:<port>" ∧
    (startPipeline [("hls", ⟨0, true⟩)] 1 "udp" "yolo" "").pipelines = [] ∧
    (startPipeline [("hls", ⟨0, true⟩)] 1 "udp" "yolo" "").pipelines ≠
      [("hls", ⟨0, true⟩)] ∧
    (startPipeline [("hls", ⟨0, true⟩)] 1 "udp" "yolo" "").events =
      [Event.signaled 0] :=
  ⟨rfl, rfl, by decide, rfl⟩

/-- C1 amended: a start request whose synthesized command fails validation
(`udp` with an unparseable target, or an unsupported protocol), issued while
the requested protocol is not recorded, is rejected with a client-facing
error and spawns no external process, and the requested protocol is not
recorded; however, every previously recorded session has already been
stopped, so the registry is empty after the failed start rather than
unchanged. -/
theorem start_validation_failure (ps : Pipelines) (n : ℕ)
    (protocol view url msg : String)
    (hrun : dictGet ps protocol = none)
    (hval : makeGstPipeline protocol view url = Except.error msg) :
    (startPipeline ps n protocol view url).result = Except.error msg ∧
    (startPipeline ps n protocol view url).pipelines = [] ∧
    ∀ ev ∈ (startPipeline ps n protocol view url).events, ev.isSpawn = false := by
  have h1 : (dictGet ps protocol).isSome = false := by rw [hrun]; rfl
  have hred : startPipeline ps n protocol view url =
      ⟨Except.error msg, (stopAllGo ps (ps.map Prod.fst)).1,
        (stopAllGo ps (ps.map Prod.fst)).2.1,
        ps :: (stopAllGo ps (ps.map Prod.fst)).2.2⟩ := by
    unfold startPipeline
    rw [h1, hval]
    rfl
  rw [hred]
  refine ⟨rfl, ?_, ?_⟩
  · exact stopAllGo_fst_nil (fun e he => List.mem_map_of_mem Prod.fst he)
  · exact stopAllGo_events_no_spawn (ps.map Prod.fst) ps

/-- Witness for C1 amended: start of `udp` with an empty url while `hls` is
recorded. -/
theorem start_validation_failure_witness :
    dictGet [("hls", ⟨0, true⟩)] "udp" = none ∧
    makeGstPipeline "udp" "yolo" "" =
      Except.error "UDP url must be udp://<host>:<port>" ∧
    ((startPipeline [("hls", ⟨0, true⟩)] 1 "udp" "yolo" "").result =
        Except.error "UDP url must be udp://<host>:<port>" ∧
      (startPipeline [("hls", ⟨0, true⟩)] 1 "udp" "yolo" "").pipelines = [] ∧
      ∀ ev ∈ (startPipeline [("hls", ⟨0, true⟩)] 1 "udp" "yolo" "").events,
        ev.isSpawn = false) :=
  ⟨rfl, rfl,
    start_validation_failure [("hls", ⟨0, true⟩)] 1 "udp" "yolo" ""
      "UDP url must be udp://<host>:<port>" rfl rfl⟩

/-- C2: starting protocol `B` while a different protocol `A` is the sole
running session (and `B`'s command synthesizes) succeeds, stops `A` before
spawning `B` (the signal precedes the spawn in the event order), leaves `B`
as the sole running protocol with `A` absent, and at every point of the
start, the registry holds at most one session. -/
theorem start_switch_protocol (A B view url : String) (pA : Proc) (n : ℕ)
    (hne : A ≠ B) (hok : (makeGstPipeline B view url).isOk = true) :
    (startPipeline [(A, pA)] n B view url).result = Except.ok () ∧
    (startPipeline [(A, pA)] n B view url).pipelines = [(B, ⟨n, true⟩)] ∧
    dictGet (startPipeline [(A, pA)] n B view url).pipelines A = none ∧
    (startPipeline [(A, pA)] n B view url).events =
      (if pA.alive then [Event.signaled pA.pid] else []) ++ [Event.spawned B n] ∧
    ∀ t ∈ (startPipeline [(A, pA)] n B view url).trace, t.length ≤ 1 := by
  obtain ⟨cmd, hcmd⟩ : ∃ cmd, makeGstPipeline B view url = Except.ok cmd := by
    cases h : makeGstPipeline B view url with
    | error e => rw [h] at hok; exact absurd hok (by simp [Except.isOk, Except.toBool])
    | ok c => exact ⟨c, rfl⟩
  have hget : dictGet [(A, pA)] B = none := by
    rw [dictGet, if_neg hne]
    rfl
  have hgetSome : (dictGet [(A, pA)] B).isSome = false := by rw [hget]; rfl
  have hstopped : stopAllGo [(A, pA)] [A] =
      ([], (if pA.alive then [Event.signaled pA.pid] else []), [[]]) := by
    have hsp : stopPipeline [(A, pA)] A =
        ([], if pA.alive then [Event.signaled pA.pid] else []) := by
      unfold stopPipeline
      rw [dictGet, if_pos rfl]
      rw [dictRemove, if_pos rfl]
      rfl
    show (let s1 := stopPipeline [(A, pA)] A
          let rest := stopAllGo s1.1 []
          (rest.1, s1.2 ++ rest.2.1, s1.1 :: rest.2.2)) = _
    rw [hsp]
    simp [stopAllGo]
  have hkeys : ([(A, pA)] : Pipelines).map Prod.fst = [A] := rfl
  have hred : startPipeline [(A, pA)] n B view url =
      ⟨Except.ok (), [(B, ⟨n, true⟩)],
        (if pA.alive then [Event.signaled pA.pid] else []) ++ [Event.spawned B n],
        [[(A, pA)], [], [(B, ⟨n, true⟩)]]⟩ := by
    unfold startPipeline
    rw [hgetSome, hkeys, hstopped, hcmd]
    rfl
  rw [hred]
  refine ⟨rfl, rfl, ?_, rfl, ?_⟩
  · rw [dictGet, if_neg (Ne.symm hne)]
    rfl
  · intro t ht
    rcases List.mem_cons.mp ht with rfl | ht
    · simp
    rcases List.mem_cons.mp ht with rfl | ht
    · simp
    rcases List.mem_cons.mp ht with rfl | ht
    · simp
    · exact absurd ht (List.not_mem_nil t)

/-- Witness for C2: switching from a running `hls` session to `rtsp`. -/
theorem start_switch_protocol_witness :
    ("hls" ≠ "rtsp") ∧
    (makeGstPipeline "rtsp" "yolo" "").isOk = true ∧
    ((startPipeline [("hls", ⟨7, true⟩)] 1 "rtsp" "yolo" "").result = Except.ok () ∧
      (startPipeline [("hls", ⟨7, true⟩)] 1 "rtsp" "yolo" "").pipelines =
        [("rtsp", ⟨1, true⟩)] ∧
      dictGet (startPipeline [("hls", ⟨7, true⟩)] 1 "rtsp" "yolo" "").pipelines "hls" =
        none ∧
      (startPipeline [("hls", ⟨7, true⟩)] 1 "rtsp" "yolo" "").events =
        (if (Proc.mk 7 true).alive then [Event.signaled 7] else []) ++
          [Event.spawned "rtsp" 1] ∧
      ∀ t ∈ (startPipeline [("hls", ⟨7, true⟩)] 1 "rtsp" "yolo" "").trace,
        t.length ≤ 1) :=
  ⟨by decide, rfl,
    start_switch_protocol "hls" "rtsp" "yolo" "" ⟨7, true⟩ 1 (by decide) rfl⟩

/-- C6: a start request for a protocol already recorded as running is a
no-op: the call succeeds, the registry is unchanged, no external process is
spawned or signalled, and the protocol still has exactly one recorded
session. -/
theorem start_idempotent (ps : Pipelines) (n : ℕ) (protocol view url : String)
    (pr : Proc) (hrun : dictGet ps protocol = some pr)
    (hcount : (ps.map Prod.fst).count protocol = 1) :
    (startPipeline ps n protocol view url).result = Except.ok () ∧
    (startPipeline ps n protocol view url).pipelines = ps ∧
    (startPipeline ps n protocol view url).events = [] ∧
    ((startPipeline ps n protocol view url).pipelines.map Prod.fst).count protocol
      = 1 := by
  have h1 : (dictGet ps protocol).isSome = true := by rw [hrun]; rfl
  have hred : startPipeline ps n protocol view url = ⟨Except.ok (), ps, [], [ps]⟩ := by
    unfold startPipeline
    rw [h1]
    rfl
  rw [hred]
  exact ⟨rfl, rfl, rfl, hcount⟩

/-- Witness for C6: a second start of the running `hls` session. -/
theorem start_idempotent_witness :
    dictGet [("hls", ⟨0, true⟩)] "hls" = some ⟨0, true⟩ ∧
    (([("hls", (⟨0, true⟩ : Proc))].map Prod.fst).count "hls" = 1) ∧
    ((startPipeline [("hls", ⟨0, true⟩)] 1 "hls" "yolo" "").result = Except.ok () ∧
      (startPipeline [("hls", ⟨0, true⟩)] 1 "hls" "yolo" "").pipelines =
        [("hls", ⟨0, true⟩)] ∧
      (startPipeline [("hls", ⟨0, true⟩)] 1 "hls" "yolo" "").events = [] ∧
      (((startPipeline [("hls", ⟨0, true⟩)] 1 "hls" "yolo" "").pipelines.map
        Prod.fst).count "hls" = 1)) :=
  ⟨rfl, by decide,
    start_idempotent [("hls", ⟨0, true⟩)] 1 "hls" "yolo" "" ⟨0, true⟩ rfl (by decide)⟩

/-- C7 counterexample: the registry state with an `hls` entry whose process
has exited is reachable (start `hls`, then the process exits on its own),
yet the entry is still present: the set of entries is `{hls}` while the set
of protocols with a running process is empty, so exit detection does not
destroy the entry. -/
theorem registry_running_mismatch_cex :
    Reach [("hls", ⟨0, false⟩)] 1 ∧
    entryProtocols [("hls", ⟨0, false⟩)] = ["hls"] ∧
    runningProtocols [("hls", ⟨0, false⟩)] = [] := by
  refine ⟨?_, rfl, rfl⟩
  have h1 : Reach (startPipeline [] 0 "hls" "yolo" "").pipelines 1 :=
    Reach.start "hls" "yolo" "" Reach.init
  have heq : (startPipeline [] 0 "hls" "yolo" "").pipelines =
      [("hls", ⟨0, true⟩)] := rfl
  rw [heq] at h1
  have h2 : Reach (procExit [("hls", ⟨0, true⟩)] "hls") 1 := Reach.exit "hls" h1
  have heq2 : procExit [("hls", ⟨0, true⟩)] "hls" = [("hls", ⟨0, false⟩)] := rfl
  rwa [heq2] at h2

/-- C7 amended: at every reachable state the registry holds at most one
entry per protocol key (its key list has no duplicates); an entry is
created by a start request and destroyed by a stop request or a protocol
switch — but not by process exit, which leaves the key set unchanged while
the process is merely reported as not running. -/
theorem registry_invariants (ps : Pipelines) (n : ℕ) (h : Reach ps n) :
    (entryProtocols ps).Nodup ∧
    (∀ protocol, entryProtocols (procExit ps protocol) = entryProtocols ps) ∧
    (∀ protocol, dictGet (stopPipeline ps protocol).1 protocol = none) := by
  have hexit : ∀ (qs : Pipelines) (protocol : String),
      entryProtocols (procExit qs protocol) = entryProtocols qs := by
    intro qs protocol
    unfold entryProtocols procExit
    rw [List.map_map]
    apply List.map_congr_left
    intro e _
    by_cases he : e.1 = protocol
    · simp [he]
    · simp [he]
  have hstop : ∀ (qs : Pipelines) (protocol : String),
      dictGet (stopPipeline qs protocol).1 protocol = none := by
    intro qs protocol
    rw [stopPipeline_fst]
    exact dictGet_dictRemove qs protocol
  refine ⟨?_, hexit ps, hstop ps⟩
  induction h with
  | init => exact List.nodup_nil
  | start protocol view url h ih =>
      rename_i qs m
      by_cases hrun : (dictGet qs protocol).isSome = true
      · have : startPipeline qs m protocol view url = ⟨Except.ok (), qs, [], [qs]⟩ := by
          unfold startPipeline
          rw [hrun]
          rfl
        rw [this]
        exact ih
      · have hrunf : (dictGet qs protocol).isSome = false := by
          simpa using hrun
        have hnil : (stopAllGo qs (qs.map Prod.fst)).1 = [] :=
          stopAllGo_fst_nil (fun e he => List.mem_map_of_mem Prod.fst he)
        cases hm : makeGstPipeline protocol view url with
        | error e =>
            have : (startPipeline qs m protocol view url).pipelines =
                (stopAllGo qs (qs.map Prod.fst)).1 := by
              unfold startPipeline
              rw [hrunf, hm]
              rfl
            rw [this, hnil]
            exact List.nodup_nil
        | ok cmd =>
            have : (startPipeline qs m protocol view url).pipelines =
                (protocol, ⟨m, true⟩) :: (stopAllGo qs (qs.map Prod.fst)).1 := by
              unfold startPipeline
              rw [hrunf, hm]
              rfl
            rw [this, hnil]
            simp [entryProtocols]
  | stop protocol h ih =>
      rename_i qs m
      rw [stopPipeline_fst]
      exact List.Nodup.sublist (keys_dictRemove_sublist qs protocol) ih
  | exit protocol h ih =>
      rename_i qs m
      rw [hexit qs protocol]
      exact ih

/-- Witness for C7 amended at the initial empty registry. -/
theorem registry_invariants_witness :
    Reach [] 0 ∧
    ((entryProtocols []).Nodup ∧
      (∀ protocol, entryProtocols (procExit [] protocol) = entryProtocols []) ∧
      (∀ protocol, dictGet (stopPipeline [] protocol).1 protocol = none)) :=
  ⟨Reach.init, registry_invariants [] 0 Reach.init⟩

end CamServer
